import Mathlib

/-!
# Verification of go-ftw core logic

Shallow embedding of the go-ftw WAF test harness core:
* the marker-correlation log scanner (`waflog`: `getMarkedLines`,
  `CheckLogForMarker`, `Contains`),
* the stage executor (`runner`: `RunStage`, `checkTestSanity`,
  `overriddenTestResult`, the retry-once logic of `RunTest`),
* the expectation checker (`checkResult` with the check package's assertions).

Log lines are modelled as byte sequences (`List Nat`), log files as lists of
lines in chronological (append) order.  The backward scanner of the Go code
reads the reversed list.  Regular-expression matching (Go `regexp`) and the
compiled override regexes are external to the repository and are abstracted
as boolean matcher functions.
-/

namespace GoFtw

/-- A log line / byte string, as a list of byte values. -/
abbrev Bytes := List Nat

/-- ASCII lowercasing of one byte, as performed by Go `bytes.ToLower`
on ASCII input. -/
def byteToLower (b : Nat) : Nat :=
  if 65 ≤ b ∧ b ≤ 90 then b + 32 else b

/-- Go `bytes.ToLower` on a byte slice (ASCII range). -/
def bytesToLower (l : Bytes) : Bytes :=
  l.map byteToLower

/-- Go `bytes.Contains hay needle`: `needle` occurs as a contiguous
subsequence of `hay`. -/
def bytesContains (hay needle : Bytes) : Bool :=
  hay.tails.any (fun t => needle.isPrefixOf t)

/-- The mutable marker state of `waflog.FTWLogLines`: the start and end
marker lines (already lowercased by `SetStartMarker`/`SetEndMarker`;
`nil` is modelled as `[]`). -/
structure FTWLogLines where
  StartMarker : Bytes
  EndMarker : Bytes
  deriving Repr, DecidableEq

/-- The backward-scan loop of `waflog.getMarkedLines` (part_001:58-78).
`lines` is the remaining file in backward-scan order (newest first);
`endFound` and `found` are the loop state.  Each line is lowercased and
compared with the end marker (before `endFound`) and the start marker
(after `endFound`); any other line is appended to `found`. -/
def getMarkedLinesLoop (startM endM : Bytes) :
    List Bytes → Bool → List Bytes → List Bytes
  | [], _, found => found
  | line :: rest, endFound, found =>
    let lineLower := bytesToLower line
    if !endFound && lineLower = endM then
      getMarkedLinesLoop startM endM rest true found
    else if endFound && lineLower = startM then
      found
    else
      getMarkedLinesLoop startM endM rest endFound (found ++ [line])

/-- `waflog.getMarkedLines` (part_001:37-80): scan the log file backward
from the end, skipping the end-marker line, collecting lines until the
start-marker line is reached.  `file` is the log file content in
chronological order. -/
def getMarkedLines (ll : FTWLogLines) (file : List Bytes) : List Bytes :=
  getMarkedLinesLoop ll.StartMarker ll.EndMarker file.reverse false []

/-- `waflog.Contains` (part_001:16-35): the marked window contains a line
matching the regex.  The Go `regexp.Match` call is abstracted as the
matcher function `re`. -/
def Contains (ll : FTWLogLines) (file : List Bytes) (re : Bytes → Bool) : Bool :=
  (getMarkedLines ll file).any re

/-- The backward-scan loop of `waflog.CheckLogForMarker` (part_001:104-124)
together with the final stage-ID check (part_001:127-132), instrumented
with the number of lines read from the scanner.  `hdr` is the already
lowercased marker header name, `sid` the raw stage-ID bytes, `lines` the
remaining file in backward-scan order and `c` the Go `lineCounter`.
Returns `((marker?, aborted), linesRead)`: the found marker line (already
lowercased), the abort flag returned on hitting the read limit, and how
many lines the scanner produced. -/
def checkLogForMarkerLoop (hdr sid : Bytes) (readLimit : Nat) :
    List Bytes → Nat → (Option Bytes × Bool) × Nat
  | lines, c =>
    if c > readLimit then ((none, true), 0)
    else
      match lines with
      | [] => ((none, false), 0)
      | l :: rest =>
        let line := bytesToLower l
        if bytesContains line hdr then
          if bytesContains line sid then ((some line, false), 1)
          else ((none, false), 1)
        else
          let r := checkLogForMarkerLoop hdr sid readLimit rest (c + 1)
          (r.1, r.2 + 1)

/-- `waflog.CheckLogForMarker` (part_001:88-133): scan the log backward for
a line containing the (lowercased) marker header name, reading at most
until the line counter exceeds `readLimit`; if the line found also
contains the stage ID, return it (lowercased).  The second component is
the abort flag (`true` when the read limit was hit). -/
def CheckLogForMarker (headerName sid : Bytes) (readLimit : Nat)
    (file : List Bytes) : Option Bytes × Bool :=
  (checkLogForMarkerLoop (bytesToLower headerName) sid readLimit file.reverse 0).1

/-- Number of lines `waflog.CheckLogForMarker` reads from the backward
scanner on the given file. -/
def checkLogForMarkerInspected (headerName sid : Bytes) (readLimit : Nat)
    (file : List Bytes) : Nat :=
  (checkLogForMarkerLoop (bytesToLower headerName) sid readLimit file.reverse 0).2

/-- The per-stage test result (`runner.TestResult`). -/
inductive TestResult
  | Success
  | Failed
  | Ignored
  | ForcePass
  | ForceFail
  | Skipped
  deriving Repr, DecidableEq

/-- The expected output of a stage (`test.Output` as used by the check
package).  `none` in an `Option` field means the expectation is not
specified.  The log regexes are abstracted as matcher functions. -/
structure Output where
  Status : Option (List Nat)
  ResponseContains : Option Bytes
  LogContains : Option (Bytes → Bool)
  NoLogContains : Option (Bytes → Bool)
  ExpectError : Option Bool
  RetryOnce : Option Bool

/-- An HTTP response as seen by `checkResult` (`ftwhttp.Response`):
the parsed status code and the full reconstructed response text. -/
structure Response where
  StatusCode : Nat
  FullResponse : Bytes
  deriving Repr, DecidableEq

/-- `check.FTWCheck`: the expectations of the current stage together with
the marker state of its log scanner. -/
structure FTWCheck where
  expected : Output
  log : FTWLogLines

/-- Modelled from the spec: `check.AssertExpectError` (the check package's
assertion methods are not part of the sources).  "if the stage expects a
connection/send error, a non-error outcome is Failed and an error outcome
is Success for this criterion only"; returns (whether an error is
expected, whether the criterion succeeded). -/
def AssertExpectError (c : FTWCheck) (errOccurred : Bool) : Bool × Bool :=
  if c.expected.ExpectError = some true then (true, errOccurred)
  else (false, false)

/-- Modelled from the spec: `check.AssertStatus` — "response status code
must be in the expected set; if the expectation specifies no status, this
criterion is trivially satisfied". -/
def AssertStatus (c : FTWCheck) (status : Nat) : Bool :=
  match c.expected.Status with
  | none => true
  | some statusSet => statusSet.contains status

/-- Modelled from the spec: `check.AssertResponseContains` — "the full
reconstructed response text must contain the expected substring when one
is specified". -/
def AssertResponseContains (c : FTWCheck) (fullResponse : Bytes) : Bool :=
  match c.expected.ResponseContains with
  | none => true
  | some sub => bytesContains fullResponse sub

/-- Modelled from the spec: `check.AssertLogs` — the bounded log window
(computed by the sources' `waflog.Contains` over the marker state) must
contain a line matching the log-contains regex when specified, and no
line matching the log-not-contains regex when specified. -/
def AssertLogs (c : FTWCheck) (file : List Bytes) : Bool :=
  (match c.expected.LogContains with
   | none => true
   | some re => Contains c.log file re) &&
  (match c.expected.NoLogContains with
   | none => true
   | some re => !Contains c.log file re)

/-- `runner.checkResult` (run.go:341-374): the verdict for one stage given
the response and whether the request errored.  `file` is the log file
content read by the check's log scanner. -/
def checkResult (c : FTWCheck) (file : List Bytes) (response : Option Response)
    (responseError : Bool) : TestResult :=
  let ae := AssertExpectError c responseError
  if ae.1 then
    if ae.2 then TestResult.Success else TestResult.Failed
  else if responseError then TestResult.Failed
  else
    match response with
    | none => TestResult.Failed
    | some resp =>
      if !AssertStatus c resp.StatusCode then TestResult.Failed
      else if !AssertResponseContains c resp.FullResponse then TestResult.Failed
      else if !AssertLogs c file then TestResult.Failed
      else TestResult.Success

/-- The request-source fields of `test.Input` relevant to
`checkTestSanity`: optional inline data, pre-encoded request, raw
request. -/
structure Input where
  Data : Option String
  EncodedRequest : String
  RAWRequest : String
  deriving Repr, DecidableEq

/-- Modelled from the spec: `utils.IsNotEmpty` on the optional inline data
(the utils package is not part of the sources) — inline data is supplied
when present and non-empty. -/
def IsNotEmpty (o : Option String) : Bool :=
  match o with
  | some s => !(s = "")
  | none => false

/-- `runner.checkTestSanity` (run.go:293-299): true (reject) when the input
supplies more than one of inline data, pre-encoded request, raw
request. -/
def checkTestSanity (testInput : Input) : Bool :=
  (IsNotEmpty testInput.Data && !(testInput.EncodedRequest = "")) ||
  (IsNotEmpty testInput.Data && !(testInput.RAWRequest = "")) ||
  (!(testInput.EncodedRequest = "") && !(testInput.RAWRequest = ""))

/-- `runner.needToSkipTest` (run.go:264-291).  The compiled include and
exclude regexes are abstracted as optional matcher functions over the
test identifier string. -/
def needToSkipTest (includeRe excludeRe : Option (String → Bool))
    (id : String) : Bool :=
  if (match includeRe with | some inc => inc id | none => false) then
    false
  else
    let result := false
    let result :=
      match excludeRe with
      | some ex => if ex id then true else result
      | none => result
    let result :=
      match includeRe with
      | some inc => if !inc id then true else result
      | none => result
    result

/-- The three override rule sets of the configuration
(`config.FTWTestOverride`).  Each compiled-regex set is abstracted as one
matcher over the test identifier (the disjunction of its rules'
matches). -/
structure TestOverride where
  Ignore : String → Bool
  ForceFail : String → Bool
  ForcePass : String → Bool

/-- `runner.overriddenTestResult` (run.go:324-338), with the check
package's `ForcedIgnore`/`ForcedFail`/`ForcedPass` rule-set lookups:
ignore is checked first, then force-fail, then force-pass; `Failed` is
the sentinel for "no override matched". -/
def overriddenTestResult (ov : TestOverride) (id : String) : TestResult :=
  if ov.Ignore id then TestResult.Ignored
  else if ov.ForceFail id then TestResult.ForceFail
  else if ov.ForcePass id then TestResult.ForcePass
  else TestResult.Failed

/-- A Connection-layer invocation performed by a stage. -/
inductive Event
  | newConnection
  | newOrReusedConnection
  | doRequest
  deriving Repr, DecidableEq

/-- Outcome of one iteration of the marker-probe loop, abstracting the
target server and the firewall's log: the connection fails, the send
fails, the probe's marker is not found in the log, or it is found. -/
inductive ProbeStep
  | connFail
  | sendFail
  | markerMissing
  | markerFound (marker : Bytes)

/-- `runner.markAndFlush` (run.go:226-262): up to `MaxMarkerRetries`
iterations, each reusing/opening a connection and sending the probe, then
scanning the log for the marker; connection and send failures abort with
an error (`none`), and exhausting the retries also yields `none`.
Returns the found marker and the Connection-layer invocations made. -/
def markAndFlush (probe : Nat → ProbeStep) : Nat → Option Bytes × List Event
  | 0 => (none, [])
  | Nat.succ n =>
    match probe n with
    | ProbeStep.connFail => (none, [Event.newOrReusedConnection])
    | ProbeStep.sendFail => (none, [Event.newOrReusedConnection, Event.doRequest])
    | ProbeStep.markerFound m =>
      (some m, [Event.newOrReusedConnection, Event.doRequest])
    | ProbeStep.markerMissing =>
      let r := markAndFlush probe n
      (r.1, Event.newOrReusedConnection :: Event.doRequest :: r.2)

/-- The configuration fields `RunStage` consumes. -/
structure RunConfig where
  CloudMode : Bool
  MaxMarkerRetries : Nat
  TestOverride : TestOverride

/-- The external world of one stage execution: the outcomes of the start
and end marker-probe iterations, whether `NewConnection` errors, the
response and error of `Client.Do`, and the log file content at check
time. -/
structure StageEnv where
  startProbe : Nat → ProbeStep
  connectErr : Bool
  response : Option Response
  responseErr : Bool
  endProbe : Nat → ProbeStep
  logFile : List Bytes

/-- How `RunStage` terminates: the Go error returns (bad test input, the
marker/connection/send failures, the `retry-once` sentinel error) or a
nil-error completion carrying the recorded result (a forced override
verdict or `checkResult`'s verdict). -/
inductive StageOutcome
  | badTestInput
  | startMarkerError
  | connectionError
  | sendError
  | endMarkerError
  | retrySignal
  | ok (result : TestResult)
  deriving Repr, DecidableEq

/-- The marker state `RunStage` leaves on the check's log scanner:
`SetStartMarker`/`SetEndMarker` (run.go:176,201) store the found marker
lines lowercased (check package `SetStartMarker`/`SetEndMarker`); in
cloud mode neither is set and both stay empty, and a tolerated marker
failure stores the lowercased `nil` marker, i.e. the empty line. -/
def stageMarkers (cloudMode : Bool) (startMarker endMarker : Option Bytes) :
    FTWLogLines where
  StartMarker := if !cloudMode then bytesToLower (startMarker.getD []) else []
  EndMarker := if !cloudMode then bytesToLower (endMarker.getD []) else []

/-- `runner.RunStage` (run.go:138-224): sanity check, forced-override
short-circuit, start marking (unless cloud mode), connect, send, end
marking, expectation check, retry-once signalling.  Returns the outcome
and the list of Connection-layer invocations in order. -/
def RunStage (cfg : RunConfig) (testId : String) (testInput : Input)
    (stageExpected : Output) (env : StageEnv) : StageOutcome × List Event :=
  let expectErr := stageExpected.ExpectError = some true
  if checkTestSanity testInput then (StageOutcome.badTestInput, [])
  else if overriddenTestResult cfg.TestOverride testId ≠ TestResult.Failed then
    (StageOutcome.ok (overriddenTestResult cfg.TestOverride testId), [])
  else
    let startRes :=
      if !cfg.CloudMode then markAndFlush env.startProbe cfg.MaxMarkerRetries
      else (none, [])
    if !cfg.CloudMode ∧ startRes.1 = none ∧ ¬expectErr then
      (StageOutcome.startMarkerError, startRes.2)
    else
      let ev₂ := startRes.2 ++ [Event.newConnection]
      if env.connectErr ∧ ¬expectErr then (StageOutcome.connectionError, ev₂)
      else
        let ev₃ := ev₂ ++ [Event.doRequest]
        if env.responseErr ∧ ¬expectErr then (StageOutcome.sendError, ev₃)
        else
          let endRes :=
            if !cfg.CloudMode then markAndFlush env.endProbe cfg.MaxMarkerRetries
            else (none, [])
          let ev₄ := ev₃ ++ endRes.2
          if !cfg.CloudMode ∧ endRes.1 = none ∧ ¬expectErr then
            (StageOutcome.endMarkerError, ev₄)
          else
            let ll : FTWLogLines := stageMarkers cfg.CloudMode startRes.1 endRes.1
            let c : FTWCheck := { expected := stageExpected, log := ll }
            let testResult := checkResult c env.logFile env.response env.responseErr
            if testResult = TestResult.Failed ∧ stageExpected.RetryOnce = some true then
              (StageOutcome.retrySignal, ev₄)
            else
              (StageOutcome.ok testResult, ev₄)

/-- What `RunTest`'s per-stage loop body yields: the stage completed with
a result, or `RunTest` returns the error to its caller. -/
inductive TestStepResult
  | noError (result : TestResult)
  | fatal (e : StageOutcome)
  deriving Repr, DecidableEq

/-- The retry logic of `runner.RunTest` (run.go:111-120): run the stage;
on the `retry-once` sentinel error run it exactly once more, and any
error of that second run (including `retry-once` again) is returned;
any other error of the first run is returned.  `attempt n` is the outcome
of the n-th `RunStage` invocation; returns how many invocations were made
and the loop body's result. -/
def runTestStage (attempt : Nat → StageOutcome) : Nat × TestStepResult :=
  match attempt 0 with
  | StageOutcome.ok r => (1, TestStepResult.noError r)
  | StageOutcome.retrySignal =>
    match attempt 1 with
    | StageOutcome.ok r => (2, TestStepResult.noError r)
    | e => (2, TestStepResult.fatal e)
  | e => (1, TestStepResult.fatal e)

/-! ## Theorems -/

/-- C8: `checkTestSanity` rejects the stage exactly when the input supplies
more than one of the three mutually exclusive request sources (inline
data, pre-encoded request, raw request); an input supplying at most one
of them is never rejected. -/
theorem checkTestSanity_iff_multiple_sources (i : Input) :
    checkTestSanity i = true ↔
      2 ≤ (if IsNotEmpty i.Data = true then 1 else 0) +
          ((if i.EncodedRequest ≠ "" then 1 else 0) +
           (if i.RAWRequest ≠ "" then 1 else 0)) := by
  cases hd : IsNotEmpty i.Data <;>
    by_cases he : i.EncodedRequest = "" <;>
    by_cases hr : i.RAWRequest = "" <;>
    simp [checkTestSanity, hd, he, hr]

/-- C9: a test whose identifier matches both the include and the exclude
pattern is not skipped — when an include pattern is configured, inclusion
takes precedence over exclusion in `needToSkipTest`. -/
theorem needToSkipTest_include_wins (inc ex : String → Bool) (id : String)
    (hinc : inc id = true) (hex : ex id = true) :
    needToSkipTest (some inc) (some ex) id = false := by
  simp [needToSkipTest, hinc]

/-- Closed witness for C9. -/
theorem needToSkipTest_include_wins_witness :
    needToSkipTest (some fun _ => true) (some fun _ => true) "911100-1" = false :=
  needToSkipTest_include_wins (fun _ => true) (fun _ => true) "911100-1" rfl rfl

/-- C10: for every matcher (in particular one matching the empty string),
`Contains` returns `false` whenever the marked-lines window is empty, so
a log-contains expectation can never be satisfied against an empty
window. -/
theorem Contains_empty_window_false (ll : FTWLogLines) (file : List Bytes)
    (re : Bytes → Bool) (h : getMarkedLines ll file = []) :
    Contains ll file re = false := by
  simp [Contains, h]

/-- Closed witness for C10: an always-true matcher (it matches the empty
string) still fails against the empty window of an empty log file. -/
theorem Contains_empty_window_false_witness :
    Contains ⟨[], []⟩ [] (fun _ => true) = false :=
  Contains_empty_window_false ⟨[], []⟩ [] (fun _ => true) rfl

/-- C5: the error-expectation gate of `checkResult`.  If the stage expects
a connection/send error, the verdict is Success when an error occurred
and Failed when none occurred; if it does not expect an error, an
unexpected error yields Failed for every expectation setting (so no
further criterion can change the verdict); and a missing response after
a non-error outcome yields Failed. -/
theorem checkResult_error_expectation (c : FTWCheck) (file : List Bytes)
    (response : Option Response) :
    (c.expected.ExpectError = some true →
      checkResult c file response true = TestResult.Success ∧
      checkResult c file response false = TestResult.Failed) ∧
    (c.expected.ExpectError ≠ some true →
      checkResult c file response true = TestResult.Failed) ∧
    checkResult c file none false = TestResult.Failed := by
  refine ⟨fun h => ?_, fun h => ?_, ?_⟩
  · constructor <;> simp [checkResult, AssertExpectError, h]
  · simp [checkResult, AssertExpectError, h]
  · by_cases h : c.expected.ExpectError = some true <;>
      simp [checkResult, AssertExpectError, h]

/-- Closed witness for C5: a stage expecting an error succeeds when the
request errors out. -/
theorem checkResult_error_expectation_witness :
    checkResult ⟨⟨none, none, none, none, some true, none⟩, ⟨[], []⟩⟩ [] none true
      = TestResult.Success :=
  ((checkResult_error_expectation
      ⟨⟨none, none, none, none, some true, none⟩, ⟨[], []⟩⟩ [] none).1 rfl).1

/-- One backward-scan step of `getMarkedLines` on a non-empty scan list. -/
theorem getMarkedLinesLoop_cons (startM endM line : Bytes) (rest : List Bytes)
    (endFound : Bool) (found : List Bytes) :
    getMarkedLinesLoop startM endM (line :: rest) endFound found =
      if !endFound && bytesToLower line = endM then
        getMarkedLinesLoop startM endM rest true found
      else if endFound && bytesToLower line = startM then found
      else getMarkedLinesLoop startM endM rest endFound (found ++ [line]) := rfl

/-- Before the end marker is found, the backward scan appends every line
whose lowercase form is not the end marker. -/
theorem getMarkedLinesLoop_append_before_end (startM endM : Bytes)
    (xs : List Bytes) (h : ∀ x ∈ xs, bytesToLower x ≠ endM) :
    ∀ rest acc, getMarkedLinesLoop startM endM (xs ++ rest) false acc =
      getMarkedLinesLoop startM endM rest false (acc ++ xs) := by
  induction xs with
  | nil => intro rest acc; simp
  | cons x xs ih =>
    intro rest acc
    have hx : bytesToLower x ≠ endM := h x (by simp)
    rw [List.cons_append, getMarkedLinesLoop_cons]
    rw [if_neg (by simp [hx]), if_neg (by simp)]
    rw [ih (fun y hy => h y (by simp [hy])) rest (acc ++ [x])]
    simp

/-- After the end marker was found, the backward scan appends every line
whose lowercase form is not the start marker. -/
theorem getMarkedLinesLoop_append_after_end (startM endM : Bytes)
    (xs : List Bytes) (h : ∀ x ∈ xs, bytesToLower x ≠ startM) :
    ∀ rest acc, getMarkedLinesLoop startM endM (xs ++ rest) true acc =
      getMarkedLinesLoop startM endM rest true (acc ++ xs) := by
  induction xs with
  | nil => intro rest acc; simp
  | cons x xs ih =>
    intro rest acc
    have hx : bytesToLower x ≠ startM := h x (by simp)
    rw [List.cons_append, getMarkedLinesLoop_cons]
    rw [if_neg (by simp), if_neg (by simp [hx])]
    rw [ih (fun y hy => h y (by simp [hy])) rest (acc ++ [x])]
    simp

/-- C2 (amended): for a log file of the form
`pre ++ s :: mid ++ e :: post` where `s` lowercases to the start marker,
`e` lowercases to the end marker, no line of `post` lowercases to the end
marker and no line of `mid` lowercases to the start marker, the window
returned by `getMarkedLines` consists of the lines strictly between the
two marker lines *together with every line appended after the end-marker
line*, in backward-scan order.  When `post = []` (the end-marker line is
the last line of the file) this is exactly the lines strictly between
the markers. -/
theorem getMarkedLines_window (startM endM : Bytes) (pre mid post : List Bytes)
    (s e : Bytes) (hs : bytesToLower s = startM) (he : bytesToLower e = endM)
    (hpost : ∀ l ∈ post, bytesToLower l ≠ endM)
    (hmid : ∀ l ∈ mid, bytesToLower l ≠ startM) :
    getMarkedLines ⟨startM, endM⟩ (pre ++ s :: mid ++ e :: post) =
      post.reverse ++ mid.reverse := by
  unfold getMarkedLines
  have hrev : (pre ++ s :: mid ++ e :: post).reverse =
      post.reverse ++ e :: (mid.reverse ++ s :: pre.reverse) := by
    simp
  rw [hrev]
  rw [getMarkedLinesLoop_append_before_end startM endM post.reverse
    (fun x hx => hpost x (List.mem_reverse.mp hx)) _ []]
  have hstep : ∀ rest acc,
      getMarkedLinesLoop startM endM (e :: rest) false acc =
        getMarkedLinesLoop startM endM rest true acc := by
    intro rest acc
    rw [getMarkedLinesLoop_cons, if_pos (by simp [he])]
  rw [hstep]
  rw [getMarkedLinesLoop_append_after_end startM endM mid.reverse
    (fun x hx => hmid x (List.mem_reverse.mp hx)) _ _]
  have hstop : ∀ rest acc,
      getMarkedLinesLoop startM endM (s :: rest) true acc = acc := by
    intro rest acc
    rw [getMarkedLinesLoop_cons, if_neg (by simp), if_pos (by simp [hs])]
  rw [hstop]
  simp

/-- Closed witness for C2 (amended): start marker `[1]`, end marker `[3]`;
the window of `[[0],[1],[2],[3],[4]]` is `[[4],[2]]` — the line between
the markers plus the line appended after the end marker. -/
theorem getMarkedLines_window_witness :
    getMarkedLines ⟨[1], [3]⟩ [[0], [1], [2], [3], [4]] = [[4], [2]] := by
  have h := getMarkedLines_window [1] [3] [[0]] [[2]] [[4]] [1] [3]
    (by decide) (by decide) (by decide) (by decide)
  simpa using h

/-- Counterexample to C2 as stated: with start marker `[1]` and end marker
`[3]`, the line `[4]`, which was appended to the file after the
end-marker line, does appear in the window returned by `getMarkedLines`,
so the window is not the lines strictly between the two marker lines
(which would be `[[2]]`). -/
theorem getMarkedLines_counterexample :
    [4] ∈ getMarkedLines ⟨[1], [3]⟩ [[1], [2], [3], [4]] ∧
    getMarkedLines ⟨[1], [3]⟩ [[1], [2], [3], [4]] ≠ [[2]] := by decide

/-- The marker scan on the empty scan list. -/
theorem checkLogForMarkerLoop_nil (hdr sid : Bytes) (readLimit : Nat) (c : Nat) :
    checkLogForMarkerLoop hdr sid readLimit [] c =
      if c > readLimit then ((none, true), 0) else ((none, false), 0) := rfl

/-- One backward-scan step of the marker search on a non-empty scan
list. -/
theorem checkLogForMarkerLoop_cons (hdr sid : Bytes) (readLimit : Nat)
    (l : Bytes) (rest : List Bytes) (c : Nat) :
    checkLogForMarkerLoop hdr sid readLimit (l :: rest) c =
      if c > readLimit then ((none, true), 0)
      else if bytesContains (bytesToLower l) hdr then
        if bytesContains (bytesToLower l) sid then
          ((some (bytesToLower l), false), 1)
        else ((none, false), 1)
      else
        ((checkLogForMarkerLoop hdr sid readLimit rest (c + 1)).1,
         (checkLogForMarkerLoop hdr sid readLimit rest (c + 1)).2 + 1) := rfl

/-- The backward marker scan reads at most `readLimit + 1 - c` further
lines when the Go line counter stands at `c`. -/
theorem checkLogForMarkerLoop_count_le (hdr sid : Bytes) (readLimit : Nat) :
    ∀ (ls : List Bytes) (c : Nat),
      (checkLogForMarkerLoop hdr sid readLimit ls c).2 ≤ readLimit + 1 - c := by
  intro ls
  induction ls with
  | nil =>
    intro c
    rw [checkLogForMarkerLoop_nil]
    by_cases hc : c > readLimit <;> simp [hc]
  | cons l rest ih =>
    intro c
    rw [checkLogForMarkerLoop_cons]
    by_cases hc : c > readLimit
    · simp [hc]
    · rw [if_neg hc]
      by_cases hh : bytesContains (bytesToLower l) hdr = true
      · rw [if_pos hh]
        by_cases hsid : bytesContains (bytesToLower l) sid = true
        · rw [if_pos hsid]; simp; omega
        · rw [if_neg hsid]; simp; omega
      · rw [if_neg hh]
        have h2 := ih (c + 1)
        simp only [Prod.snd]
        omega

/-- When the abort flag is set, the marker scan returns no marker. -/
theorem checkLogForMarkerLoop_abort_none (hdr sid : Bytes) (readLimit : Nat) :
    ∀ (ls : List Bytes) (c : Nat),
      (checkLogForMarkerLoop hdr sid readLimit ls c).1.2 = true →
      (checkLogForMarkerLoop hdr sid readLimit ls c).1.1 = none := by
  intro ls
  induction ls with
  | nil =>
    intro c
    rw [checkLogForMarkerLoop_nil]
    by_cases hc : c > readLimit <;> simp [hc]
  | cons l rest ih =>
    intro c
    rw [checkLogForMarkerLoop_cons]
    by_cases hc : c > readLimit
    · simp [hc]
    · rw [if_neg hc]
      by_cases hh : bytesContains (bytesToLower l) hdr = true
      · rw [if_pos hh]
        by_cases hsid : bytesContains (bytesToLower l) sid = true
        · rw [if_pos hsid]; simp
        · rw [if_neg hsid]; simp
      · rw [if_neg hh]
        exact ih (c + 1)

/-- If no scanned line contains the (lowercased) header, the marker scan
returns no marker. -/
theorem checkLogForMarkerLoop_no_header_none (hdr sid : Bytes) (readLimit : Nat) :
    ∀ (ls : List Bytes) (c : Nat),
      (∀ l ∈ ls, bytesContains (bytesToLower l) hdr = false) →
      (checkLogForMarkerLoop hdr sid readLimit ls c).1.1 = none := by
  intro ls
  induction ls with
  | nil =>
    intro c _
    rw [checkLogForMarkerLoop_nil]
    by_cases hc : c > readLimit <;> simp [hc]
  | cons l rest ih =>
    intro c h
    rw [checkLogForMarkerLoop_cons]
    by_cases hc : c > readLimit
    · simp [hc]
    · have hh : bytesContains (bytesToLower l) hdr = false := h l (by simp)
      rw [if_neg hc, if_neg (by simp [hh])]
      exact ih (c + 1) (fun y hy => h y (by simp [hy]))

/-- C6 (amended): the backward marker search reads at most `readLimit + 1`
lines from the scanner; whenever it aborts due to the limit it reports
not-found; and it reports not-found (rather than diverging) even when no
line of the entire file contains the marker header. -/
theorem checkLogForMarker_bounded (headerName sid : Bytes) (readLimit : Nat)
    (file : List Bytes) :
    checkLogForMarkerInspected headerName sid readLimit file ≤ readLimit + 1 ∧
    ((CheckLogForMarker headerName sid readLimit file).2 = true →
      (CheckLogForMarker headerName sid readLimit file).1 = none) ∧
    ((∀ l ∈ file,
        bytesContains (bytesToLower l) (bytesToLower headerName) = false) →
      (CheckLogForMarker headerName sid readLimit file).1 = none) := by
  refine ⟨?_, ?_, ?_⟩
  · have := checkLogForMarkerLoop_count_le (bytesToLower headerName) sid
      readLimit file.reverse 0
    simpa [checkLogForMarkerInspected] using this
  · exact checkLogForMarkerLoop_abort_none (bytesToLower headerName) sid
      readLimit file.reverse 0
  · intro h
    exact checkLogForMarkerLoop_no_header_none (bytesToLower headerName) sid
      readLimit file.reverse 0
      (fun l hl => h l (List.mem_reverse.mp hl))

/-- Closed witness for C6 (amended): with read limit 1 on a three-line
file without the marker header, the search reports not-found. -/
theorem checkLogForMarker_bounded_witness :
    (CheckLogForMarker [104] [120] 1 [[1], [2], [3]]).1 = none :=
  (checkLogForMarker_bounded [104] [120] 1 [[1], [2], [3]]).2.2 (by decide)

/-- Counterexample to C6 as stated: with read limit 1 on a three-line file
without the marker header, the search inspects 2 lines before aborting —
more than the configured maximum of 1. -/
theorem checkLogForMarker_limit_counterexample :
    ¬ checkLogForMarkerInspected [104] [120] 1 [[1], [2], [3]] ≤ 1 := by decide

/-- Full characterization of the marker-scan loop: it returns a marker
exactly when, starting from Go line counter `c`, the scan reaches — still
within the read limit and before any other header-containing line — a
line whose lowercase form contains both the header and the stage ID, and
the returned marker is that lowercased line. -/
theorem checkLogForMarkerLoop_success_iff (hdr sid : Bytes) (readLimit : Nat) :
    ∀ (ls : List Bytes) (c : Nat) (m : Bytes),
      (checkLogForMarkerLoop hdr sid readLimit ls c).1.1 = some m ↔
      ∃ front line back, ls = front ++ line :: back ∧
        c + front.length ≤ readLimit ∧
        (∀ p ∈ front, bytesContains (bytesToLower p) hdr = false) ∧
        bytesContains (bytesToLower line) hdr = true ∧
        bytesContains (bytesToLower line) sid = true ∧
        m = bytesToLower line := by
  intro ls
  induction ls with
  | nil =>
    intro c m
    rw [checkLogForMarkerLoop_nil]
    constructor
    · intro h
      exact absurd h (by by_cases hc : c > readLimit <;> simp [hc])
    · rintro ⟨front, line, back, habs, -⟩
      exact absurd habs (by simp)
  | cons l rest ih =>
    intro c m
    rw [checkLogForMarkerLoop_cons]
    by_cases hc : c > readLimit
    · rw [if_pos hc]
      constructor
      · intro h
        exact absurd h (by simp)
      · rintro ⟨front, line, back, -, hlen, -⟩
        omega
    · rw [if_neg hc]
      by_cases hh : bytesContains (bytesToLower l) hdr = true
      · rw [if_pos hh]
        by_cases hsid : bytesContains (bytesToLower l) sid = true
        · rw [if_pos hsid]
          constructor
          · intro h
            have hm : m = bytesToLower l := by
              have := h
              simp at this
              exact this.symm
            exact ⟨[], l, rest, rfl, by simp only [List.length_nil]; omega,
              by simp, hh, hsid, hm⟩
          · rintro ⟨front, line, back, heq, hlen, hfront, hline, hsid2, hm⟩
            cases front with
            | nil =>
              simp only [List.nil_append] at heq
              cases heq
              simp [hm]
            | cons f fs =>
              injection heq with h1 h2
              subst h1
              exact absurd (hfront l (by simp)) (by simp [hh])
        · rw [if_neg hsid]
          constructor
          · intro h
            exact absurd h (by simp)
          · rintro ⟨front, line, back, heq, hlen, hfront, hline, hsid2, hm⟩
            cases front with
            | nil =>
              simp only [List.nil_append] at heq
              cases heq
              exact absurd hsid2 hsid
            | cons f fs =>
              injection heq with h1 h2
              subst h1
              exact absurd (hfront l (by simp)) (by simp [hh])
      · rw [if_neg hh]
        constructor
        · intro h
          have h' : (checkLogForMarkerLoop hdr sid readLimit rest (c + 1)).1.1
              = some m := h
          obtain ⟨front, line, back, heq, hlen, hfront, hline, hsid2, hm⟩ :=
            (ih (c + 1) m).mp h'
          refine ⟨l :: front, line, back, ?_, ?_, ?_, hline, hsid2, hm⟩
          · simp [heq]
          · simp only [List.length_cons]
            omega
          · intro p hp
            rcases List.mem_cons.mp hp with h1 | h1
            · subst h1
              simpa using hh
            · exact hfront p h1
        · rintro ⟨front, line, back, heq, hlen, hfront, hline, hsid2, hm⟩
          cases front with
          | nil =>
            simp only [List.nil_append] at heq
            cases heq
            exact absurd hline hh
          | cons f fs =>
            injection heq with h1 h2
            subst h1
            show (checkLogForMarkerLoop hdr sid readLimit rest (c + 1)).1.1
              = some m
            refine (ih (c + 1) m).mpr
              ⟨fs, line, back, h2, ?_, fun p hp => hfront p (by simp [hp]),
                hline, hsid2, hm⟩
            simp only [List.length_cons] at hlen
            omega

/-- C4: `CheckLogForMarker` succeeds exactly when the backward scan of the
file reaches, within the read limit, a line whose lowercase form contains
both the lowercased marker-header name and the stage ID as substrings
(`front` are the newer lines already scanned past, none of which contains
the header — so not-found is never reported while a line containing both
substrings lies within the scanned range); on success the returned line
is that line normalized to lowercase. -/
theorem CheckLogForMarker_success_iff (headerName sid : Bytes)
    (readLimit : Nat) (file : List Bytes) (m : Bytes) :
    (CheckLogForMarker headerName sid readLimit file).1 = some m ↔
      ∃ front line back, file.reverse = front ++ line :: back ∧
        front.length ≤ readLimit ∧
        (∀ p ∈ front,
          bytesContains (bytesToLower p) (bytesToLower headerName) = false) ∧
        bytesContains (bytesToLower line) (bytesToLower headerName) = true ∧
        bytesContains (bytesToLower line) sid = true ∧
        m = bytesToLower line := by
  have h := checkLogForMarkerLoop_success_iff (bytesToLower headerName) sid
    readLimit file.reverse 0 m
  simpa [CheckLogForMarker] using h

/-- The status assertion holds exactly when the status code is in the
expected set whenever one is specified. -/
theorem assertStatus_eq_true_iff (c : FTWCheck) (code : Nat) :
    AssertStatus c code = true ↔
      ∀ s, c.expected.Status = some s → code ∈ s := by
  cases hs : c.expected.Status <;> simp [AssertStatus, hs]

/-- The response-content assertion holds exactly when the full response
contains the expected substring whenever one is specified. -/
theorem assertResponseContains_eq_true_iff (c : FTWCheck) (full : Bytes) :
    AssertResponseContains c full = true ↔
      ∀ sub, c.expected.ResponseContains = some sub →
        bytesContains full sub = true := by
  cases hs : c.expected.ResponseContains <;> simp [AssertResponseContains, hs]

/-- The log assertion holds exactly when the marked window has a match for
the log-contains matcher (when specified) and none for the
log-not-contains matcher (when specified). -/
theorem assertLogs_eq_true_iff (c : FTWCheck) (file : List Bytes) :
    AssertLogs c file = true ↔
      ((∀ re, c.expected.LogContains = some re →
        (getMarkedLines c.log file).any re = true) ∧
       (∀ re, c.expected.NoLogContains = some re →
        (getMarkedLines c.log file).any re = false)) := by
  cases h1 : c.expected.LogContains <;> cases h2 : c.expected.NoLogContains <;>
    simp [AssertLogs, Contains, h1, h2]

/-- C1: for a stage that does not expect a connection error, when no error
occurred and a response is present, `checkResult` returns Success exactly
when every specified expectation criterion holds: the status code is in
the expected set (when specified), the full response contains the
expected substring (when specified), the marked log window has a line
matching the log-contains matcher (when specified), and no window line
matches the log-not-contains matcher (when specified); otherwise it
returns Failed. -/
theorem checkResult_success_iff (c : FTWCheck) (file : List Bytes)
    (resp : Response) (hNoExpectErr : c.expected.ExpectError ≠ some true) :
    checkResult c file (some resp) false = TestResult.Success ↔
      ((∀ s, c.expected.Status = some s → resp.StatusCode ∈ s) ∧
       (∀ sub, c.expected.ResponseContains = some sub →
         bytesContains resp.FullResponse sub = true) ∧
       (∀ re, c.expected.LogContains = some re →
         (getMarkedLines c.log file).any re = true) ∧
       (∀ re, c.expected.NoLogContains = some re →
         (getMarkedLines c.log file).any re = false)) := by
  have key : checkResult c file (some resp) false = TestResult.Success ↔
      (AssertStatus c resp.StatusCode = true ∧
       AssertResponseContains c resp.FullResponse = true ∧
       AssertLogs c file = true) := by
    cases hA : AssertStatus c resp.StatusCode <;>
    cases hB : AssertResponseContains c resp.FullResponse <;>
    cases hC : AssertLogs c file <;>
      simp [checkResult, AssertExpectError, hNoExpectErr, hA, hB, hC]
  rw [key, assertStatus_eq_true_iff, assertResponseContains_eq_true_iff,
    assertLogs_eq_true_iff]

/-- Closed witness for C1: all four criteria specified and satisfied yield
Success. -/
theorem checkResult_success_iff_witness :
    checkResult
      ⟨⟨some [200, 403], some [97], some (fun l => decide (l = [5])),
        some (fun l => decide (l = [9])), none, none⟩, ⟨[1], [3]⟩⟩
      [[1], [5], [3]] (some ⟨403, [0, 97, 2]⟩) false = TestResult.Success := by
  apply (checkResult_success_iff _ _ _ (by decide)).mpr
  refine ⟨?_, ?_, ?_, ?_⟩
  · intro s hs
    cases hs
    decide
  · intro sub hs
    cases hs
    rfl
  · intro re hre
    cases hre
    rfl
  · intro re hre
    cases hre
    rfl

/-- C3 (amended): for every stage whose input passes the sanity check and
whose test identifier matches an ignore, force-pass or force-fail rule,
`RunStage` terminates with the corresponding forced verdict and performs
no marking and zero Connection-layer invocations, regardless of the
stage's expectations or environment.  (The sanity check runs *before* the
override short-circuit, see the counterexample.) -/
theorem RunStage_override_short_circuit (cfg : RunConfig) (testId : String)
    (testInput : Input) (stageExpected : Output) (env : StageEnv)
    (hsane : checkTestSanity testInput = false)
    (hov : overriddenTestResult cfg.TestOverride testId ≠ TestResult.Failed) :
    RunStage cfg testId testInput stageExpected env =
      (StageOutcome.ok (overriddenTestResult cfg.TestOverride testId), []) := by
  simp [RunStage, hsane, hov]

/-- Closed witness for C3 (amended): an always-matching ignore rule on a
sane input gives the Ignored verdict with zero Connection-layer
invocations. -/
theorem RunStage_override_short_circuit_witness :
    RunStage ⟨false, 1, ⟨fun _ => true, fun _ => false, fun _ => false⟩⟩ "x"
        ⟨none, "", ""⟩
        ⟨none, none, none, none, none, none⟩
        ⟨fun _ => ProbeStep.markerMissing, false, none, false,
          fun _ => ProbeStep.markerMissing, []⟩ =
      (StageOutcome.ok TestResult.Ignored, []) :=
  RunStage_override_short_circuit _ "x" _ _ _ rfl (by decide)

/-- Counterexample to C3 as stated: the sanity check fires *before* the
forced-override short-circuit.  A stage whose input supplies both inline
data and a pre-encoded request, and whose identifier matches an
always-matching ignore rule, terminates with the bad-test-input error,
not with the Ignored verdict. -/
theorem RunStage_override_counterexample :
    RunStage ⟨false, 1, ⟨fun _ => true, fun _ => false, fun _ => false⟩⟩ "x"
        ⟨some "d", "e", ""⟩
        ⟨none, none, none, none, none, none⟩
        ⟨fun _ => ProbeStep.markerMissing, false, none, false,
          fun _ => ProbeStep.markerMissing, []⟩ ≠
      (StageOutcome.ok TestResult.Ignored, []) := by decide

/-- C7: a stage that declares retry-once and whose verdict is Failed makes
`RunStage` emit the retry signal, and `RunTest`'s retry logic then runs
the stage exactly one additional time: the invocation count is 2 whenever
the first attempt signalled retry (in particular when the stage fails
twice in a row, so the second failure is final), and the count never
exceeds 2 — there is never a second retry. -/
theorem retryOnce_exactly_one_retry (cfg : RunConfig) (testId : String)
    (testInput : Input) (stageExpected : Output) (env : StageEnv)
    (sm em : Bytes)
    (hsane : checkTestSanity testInput = false)
    (hov : overriddenTestResult cfg.TestOverride testId = TestResult.Failed)
    (hcloud : cfg.CloudMode = false)
    (hstart : (markAndFlush env.startProbe cfg.MaxMarkerRetries).1 = some sm)
    (hend : (markAndFlush env.endProbe cfg.MaxMarkerRetries).1 = some em)
    (hconn : env.connectErr = false)
    (hresp : env.responseErr = false)
    (hretry : stageExpected.RetryOnce = some true)
    (hfail : checkResult ⟨stageExpected, stageMarkers false (some sm) (some em)⟩
        env.logFile env.response false = TestResult.Failed) :
    (RunStage cfg testId testInput stageExpected env).1 =
      StageOutcome.retrySignal ∧
    (∀ attempt : Nat → StageOutcome, attempt 0 = StageOutcome.retrySignal →
      (runTestStage attempt).1 = 2) ∧
    (∀ attempt : Nat → StageOutcome, (runTestStage attempt).1 ≤ 2) := by
  refine ⟨?_, ?_, ?_⟩
  · simp [RunStage, hsane, hov, hcloud, hstart, hend, hconn, hresp, hretry,
      hfail]
  · intro attempt h0
    cases h1 : attempt 1 <;> simp [runTestStage, h0, h1]
  · intro attempt
    cases h0 : attempt 0 <;> cases h1 : attempt 1 <;>
      simp [runTestStage, h0, h1]

/-- Closed witness for C7: a failing stage (status expectation cannot
match) declaring retry-once signals retry, and two consecutive
retry-signalling attempts yield exactly 2 invocations. -/
theorem retryOnce_exactly_one_retry_witness :
    (RunStage ⟨false, 1, ⟨fun _ => false, fun _ => false, fun _ => false⟩⟩ "x"
        ⟨none, "", ""⟩
        ⟨some [], none, none, none, none, some true⟩
        ⟨fun _ => ProbeStep.markerFound [7], false, some ⟨200, []⟩, false,
          fun _ => ProbeStep.markerFound [8], []⟩).1 =
      StageOutcome.retrySignal ∧
    (runTestStage fun _ => StageOutcome.retrySignal).1 = 2 := by
  have h := retryOnce_exactly_one_retry
    ⟨false, 1, ⟨fun _ => false, fun _ => false, fun _ => false⟩⟩ "x"
    ⟨none, "", ""⟩
    ⟨some [], none, none, none, none, some true⟩
    ⟨fun _ => ProbeStep.markerFound [7], false, some ⟨200, []⟩, false,
      fun _ => ProbeStep.markerFound [8], []⟩ [7] [8]
    rfl (by decide) rfl rfl rfl rfl rfl rfl rfl
  exact ⟨h.1, h.2.1 _ rfl⟩

end GoFtw
